import Mathlib

/-!
Shallow embedding of the 32-bit CPU emulator (src/cpu.c, src/cpu.h).

Machine integers are modelled as `Int` with explicit two's-complement
wrapping (`wrap32`) applied where the C code performs `int32_t` arithmetic
whose result could leave the 32-bit range.  The C pointers
`memory`, `stack_bottom`, `stack_top` are modelled as the memory cell list
plus the two cell indices `stack_bottom` and `stack_top` (pointer
differences in the C source become index differences here).  The external
world (stdin consumed by `in`/`get`, stdout written by `out`/`put`) is
modelled as explicit lists carried in a `Machine` record next to the
`Cpu` record; an empty input list stands for end-of-stream.
-/

namespace Cpu32

/-- Two's-complement wrap of an integer into the `int32_t` range. -/
def wrap32 (x : Int) : Int := (x + 2 ^ 31) % 2 ^ 32 - 2 ^ 31

/-- `enum cpu_status` from src/cpu.h. -/
inductive CpuStatus
  | ok
  | halted
  | illegalInstruction
  | illegalOperand
  | invalidAddress
  | invalidStackOperation
  | divByZero
  | ioError
deriving DecidableEq, Repr

/-- `enum cpu_register`: REGISTER_A = 0. -/
def REGISTER_A : Int := 0

/-- REGISTER_B = 1. -/
def REGISTER_B : Int := 1

/-- REGISTER_C = 2. -/
def REGISTER_C : Int := 2

/-- REGISTER_D = 3. -/
def REGISTER_D : Int := 3

/-- The register file `int32_t registers[4]`. -/
structure Regs where
  a : Int
  b : Int
  c : Int
  d : Int
deriving DecidableEq, Repr

/-- `registers[reg]` read.  Only ever applied to `reg` that passed
`reg_is_valid` (0..3), mirroring the C code, where an out-of-range index
would be undefined behaviour and is unreachable. -/
def Regs.get (rs : Regs) (r : Int) : Int :=
  if r = 0 then rs.a else if r = 1 then rs.b else if r = 2 then rs.c else rs.d

/-- `registers[reg] = v` write; same reachability remark as `Regs.get`. -/
def Regs.set (rs : Regs) (r v : Int) : Regs :=
  if r = 0 then { rs with a := v }
  else if r = 1 then { rs with b := v }
  else if r = 2 then { rs with c := v }
  else { rs with d := v }

/-- `struct cpu` from src/cpu.c.  `memory` is the cell buffer; the pointer
fields `stack_bottom` and `stack_top` are represented by the corresponding
cell indices into `memory`. -/
structure Cpu where
  registers : Regs
  status : CpuStatus
  stack_size : Int
  instruction_index : Int
  memory : List Int
  stack_bottom : Int
  stack_top : Int
deriving DecidableEq, Repr

/-- One outcome of a `scanf("%d", ...)` call made by the `in` instruction:
either a token parsed to `n` (scanf returned 1) or a matching failure
(scanf returned 0).  End-of-stream is an empty event list. -/
inductive ScanResult
  | ok (n : Int)
  | fail
deriving DecidableEq, Repr

/-- A machine = the cpu together with the external I/O streams.
`stdin_tokens` feeds `in` (opcode 12), `stdin_bytes` feeds `get`
(opcode 13); an empty list means the stream is at end-of-stream.
`stdout` records the values written by `out`/`put`. -/
structure Machine where
  cpu : Cpu
  stdin_tokens : List ScanResult
  stdin_bytes : List Int
  stdout : List Int
deriving DecidableEq, Repr

/-- `cpu->memory[i]` read.  In every reachable read the index is
nonnegative (the fetch guard in `cpu_step` establishes `0 ≤ ip` and the
operand reads use `ip + k`), and within the allocated buffer, so the
`getD` default is never what the C code would observe. -/
def memRead (c : Cpu) (i : Int) : Int := c.memory.getD i.toNat 0

/-- `cpu->memory[i] = v` write (`List.set` is the in-range cell update). -/
def memWrite (c : Cpu) (i : Int) (v : Int) : List Int := c.memory.set i.toNat v

/-- `cpu_clear`: zero the registers, status ← OK, stack_size ← 0, ip ← 0. -/
def cpu_clear (c : Cpu) : Cpu :=
  { c with registers := ⟨0, 0, 0, 0⟩, status := CpuStatus.ok,
           stack_size := 0, instruction_index := 0 }

/-- `reg_is_valid`'s test (REGISTER_A ≤ reg ≤ REGISTER_D); in the C code
the failing call also sets CPU_ILLEGAL_OPERAND on the cpu, which each
caller below performs explicitly on the `false` branch. -/
def reg_is_valid (reg : Int) : Bool := REGISTER_A ≤ reg && reg ≤ REGISTER_D

/-- `in_stack`'s test: `stack_bottom - stack_size + 1 ≤ address ≤
stack_bottom`; the failing call in C also sets
CPU_INVALID_STACK_OPERATION, performed explicitly by the caller below. -/
def in_stack (c : Cpu) (address : Int) : Bool :=
  c.stack_bottom - c.stack_size + 1 ≤ address && address ≤ c.stack_bottom

/-- `handle_eof`: C ← 0, then registers[reg] ← −1 (so reg = C ends at −1),
then ip++.  Called with ip already advanced onto the operand cell. -/
def handle_eof (c : Cpu) (reg : Int) : Cpu :=
  { c with registers := (c.registers.set REGISTER_C 0).set reg (-1),
           instruction_index := c.instruction_index + 1 }

/-- Opcode 0 `nop`. -/
def nop (c : Cpu) : Cpu :=
  { c with instruction_index := c.instruction_index + 1 }

/-- Opcode 1 `halt`. -/
def halt (c : Cpu) : Cpu :=
  { c with status := CpuStatus.halted }

/-- Opcode 2 `add`. -/
def add (c : Cpu) : Cpu :=
  let i := c.instruction_index + 1
  let reg := memRead c i
  if reg_is_valid reg then
    let rs := c.registers.set REGISTER_A
      (wrap32 (c.registers.get REGISTER_A + c.registers.get reg))
    { c with registers := rs, instruction_index := i + 1 }
  else { c with status := CpuStatus.illegalOperand, instruction_index := i }

/-- Opcode 3 `sub`. -/
def sub (c : Cpu) : Cpu :=
  let i := c.instruction_index + 1
  let reg := memRead c i
  if reg_is_valid reg then
    let rs := c.registers.set REGISTER_A
      (wrap32 (c.registers.get REGISTER_A - c.registers.get reg))
    { c with registers := rs, instruction_index := i + 1 }
  else { c with status := CpuStatus.illegalOperand, instruction_index := i }

/-- Opcode 4 `mul`. -/
def mul (c : Cpu) : Cpu :=
  let i := c.instruction_index + 1
  let reg := memRead c i
  if reg_is_valid reg then
    let rs := c.registers.set REGISTER_A
      (wrap32 (c.registers.get REGISTER_A * c.registers.get reg))
    { c with registers := rs, instruction_index := i + 1 }
  else { c with status := CpuStatus.illegalOperand, instruction_index := i }

/-- Opcode 5 `div_reg`.  C's `/` on `int32_t` truncates toward zero, which
is `Int.tdiv` (the `wrap32` only matters at the INT_MIN / −1 edge, which
is undefined behaviour in the C source). -/
def div_reg (c : Cpu) : Cpu :=
  let i := c.instruction_index + 1
  let reg := memRead c i
  if reg_is_valid reg then
    if c.registers.get reg = 0 then
      { c with status := CpuStatus.divByZero, instruction_index := i }
    else
      let rs := c.registers.set REGISTER_A
        (wrap32 ((c.registers.get REGISTER_A).tdiv (c.registers.get reg)))
      { c with registers := rs, instruction_index := i + 1 }
  else { c with status := CpuStatus.illegalOperand, instruction_index := i }

/-- Opcode 6 `inc`. -/
def inc (c : Cpu) : Cpu :=
  let i := c.instruction_index + 1
  let reg := memRead c i
  if reg_is_valid reg then
    let rs := c.registers.set reg (wrap32 (c.registers.get reg + 1))
    { c with registers := rs, instruction_index := i + 1 }
  else { c with status := CpuStatus.illegalOperand, instruction_index := i }

/-- Opcode 7 `dec`. -/
def dec (c : Cpu) : Cpu :=
  let i := c.instruction_index + 1
  let reg := memRead c i
  if reg_is_valid reg then
    let rs := c.registers.set reg (wrap32 (c.registers.get reg - 1))
    { c with registers := rs, instruction_index := i + 1 }
  else { c with status := CpuStatus.illegalOperand, instruction_index := i }

/-- Opcode 8 `loop`.  With C ≠ 0 the target cell is read and assigned to
the instruction pointer with no range check (the C source routes the
`int32_t` cell through a `size_t` and back into the `int32_t`
`instruction_index`, which is the identity on the stored value). -/
def loop (c : Cpu) : Cpu :=
  if c.registers.get REGISTER_C = 0 then
    { c with instruction_index := c.instruction_index + 2 }
  else
    { c with instruction_index := memRead c (c.instruction_index + 1) }

/-- Opcode 9 `movr`. -/
def movr (c : Cpu) : Cpu :=
  let i := c.instruction_index + 1
  let reg := memRead c i
  if reg_is_valid reg then
    let j := i + 1
    let rs := c.registers.set reg (memRead c j)
    { c with registers := rs, instruction_index := j + 1 }
  else { c with status := CpuStatus.illegalOperand, instruction_index := i }

/-- `init_reg_target_address`: reads the register and offset operands
(advancing ip), computes `stack_bottom - stack_size + (D + num) + 1`, and
range-checks it against the live stack window; on failure the returned
cpu carries the error status and the already-advanced ip. -/
def init_reg_target_address (c : Cpu) : Cpu × Option (Int × Int) :=
  let i := c.instruction_index + 1
  let reg := memRead c i
  if reg_is_valid reg then
    let j := i + 1
    let num := memRead c j
    let index := c.registers.get REGISTER_D + num
    let target := c.stack_bottom - c.stack_size + index + 1
    let c' := { c with instruction_index := j }
    if in_stack c' target then (c', some (reg, target))
    else ({ c' with status := CpuStatus.invalidStackOperation }, none)
  else ({ c with status := CpuStatus.illegalOperand, instruction_index := i }, none)

/-- Opcode 10 `load`. -/
def load (c : Cpu) : Cpu :=
  match init_reg_target_address c with
  | (c', some (reg, target)) =>
      let rs := c'.registers.set reg (memRead c' target)
      { c' with registers := rs, instruction_index := c'.instruction_index + 1 }
  | (c', none) => c'

/-- Opcode 11 `store`. -/
def store (c : Cpu) : Cpu :=
  match init_reg_target_address c with
  | (c', some (reg, target)) =>
      let mem := memWrite c' target (c'.registers.get reg)
      { c' with memory := mem, instruction_index := c'.instruction_index + 1 }
  | (c', none) => c'

/-- Opcode 12 `in` (named `in_instr` because `in` is reserved in Lean).
On a matching failure scanf leaves the offending input unread, so the
event list is left unchanged on that branch; the resulting CPU_IO_ERROR
is sticky, making the difference unobservable anyway. -/
def in_instr (m : Machine) : Machine :=
  let c := m.cpu
  let i := c.instruction_index + 1
  let reg := memRead c i
  if reg_is_valid reg then
    match m.stdin_tokens with
    | [] =>
        { m with cpu := handle_eof { c with instruction_index := i } reg }
    | ScanResult.fail :: _ =>
        { m with cpu := { c with status := CpuStatus.ioError, instruction_index := i } }
    | ScanResult.ok n :: rest =>
        let c' := { c with registers := c.registers.set reg n, instruction_index := i + 1 }
        { m with cpu := c', stdin_tokens := rest }
  else { m with cpu := { c with status := CpuStatus.illegalOperand, instruction_index := i } }

/-- Opcode 13 `get`. -/
def get (m : Machine) : Machine :=
  let c := m.cpu
  let i := c.instruction_index + 1
  let reg := memRead c i
  if reg_is_valid reg then
    match m.stdin_bytes with
    | [] =>
        { m with cpu := handle_eof { c with instruction_index := i } reg }
    | b :: rest =>
        let c' := { c with registers := c.registers.set reg b, instruction_index := i + 1 }
        { m with cpu := c', stdin_bytes := rest }
  else { m with cpu := { c with status := CpuStatus.illegalOperand, instruction_index := i } }

/-- Opcode 14 `out`. -/
def out (m : Machine) : Machine :=
  let c := m.cpu
  let i := c.instruction_index + 1
  let reg := memRead c i
  if reg_is_valid reg then
    let c' := { c with instruction_index := i + 1 }
    { m with cpu := c', stdout := m.stdout ++ [c.registers.get reg] }
  else { m with cpu := { c with status := CpuStatus.illegalOperand, instruction_index := i } }

/-- Opcode 15 `put`. -/
def put (m : Machine) : Machine :=
  let c := m.cpu
  let i := c.instruction_index + 1
  let reg := memRead c i
  if reg_is_valid reg then
    let ch := c.registers.get reg
    if ch < 0 ∨ 255 < ch then
      { m with cpu := { c with status := CpuStatus.illegalOperand, instruction_index := i } }
    else
      let c' := { c with instruction_index := i + 1 }
      { m with cpu := c', stdout := m.stdout ++ [ch] }
  else { m with cpu := { c with status := CpuStatus.illegalOperand, instruction_index := i } }

/-- Opcode 16 `swap`.  Both operand cells are read (advancing ip) before
validation; the C `||` short-circuit yields the same state as this
nesting because both failing validators set the same status. -/
def swap (c : Cpu) : Cpu :=
  let i := c.instruction_index + 1
  let reg1 := memRead c i
  let j := i + 1
  let reg2 := memRead c j
  if reg_is_valid reg1 then
    if reg_is_valid reg2 then
      let rs := (c.registers.set reg2 (c.registers.get reg1)).set reg1 (c.registers.get reg2)
      { c with registers := rs, instruction_index := j + 1 }
    else { c with status := CpuStatus.illegalOperand, instruction_index := j }
  else { c with status := CpuStatus.illegalOperand, instruction_index := j }

/-- Opcode 17 `push`. -/
def push (c : Cpu) : Cpu :=
  let i := c.instruction_index + 1
  let reg := memRead c i
  if reg_is_valid reg then
    if c.stack_size = c.stack_bottom - c.stack_top + 1 then
      { c with status := CpuStatus.invalidStackOperation, instruction_index := i }
    else
      let mem := memWrite c (c.stack_bottom - c.stack_size) (c.registers.get reg)
      { c with memory := mem, stack_size := c.stack_size + 1, instruction_index := i + 1 }
  else { c with status := CpuStatus.illegalOperand, instruction_index := i }

/-- Opcode 18 `pop`. -/
def pop (c : Cpu) : Cpu :=
  let i := c.instruction_index + 1
  let reg := memRead c i
  if reg_is_valid reg then
    if c.stack_size ≤ 0 then
      { c with status := CpuStatus.invalidStackOperation, instruction_index := i }
    else
      let ss := c.stack_size - 1
      let idx := c.stack_bottom - ss
      let rs := c.registers.set reg (memRead c idx)
      { c with registers := rs, memory := memWrite c idx 0,
               stack_size := ss, instruction_index := i + 1 }
  else { c with status := CpuStatus.illegalOperand, instruction_index := i }

/-- Lift a pure cpu-to-cpu handler to the machine (handlers that perform
no I/O touch only the cpu). -/
def liftCpu (f : Cpu → Cpu) (m : Machine) : Machine := { m with cpu := f m.cpu }

/-- The `instructions[]` dispatch table, indexed by the opcode value. -/
def instructions (instruction : Int) (m : Machine) : Machine :=
  if instruction = 0 then liftCpu nop m
  else if instruction = 1 then liftCpu halt m
  else if instruction = 2 then liftCpu add m
  else if instruction = 3 then liftCpu sub m
  else if instruction = 4 then liftCpu mul m
  else if instruction = 5 then liftCpu div_reg m
  else if instruction = 6 then liftCpu inc m
  else if instruction = 7 then liftCpu dec m
  else if instruction = 8 then liftCpu loop m
  else if instruction = 9 then liftCpu movr m
  else if instruction = 10 then liftCpu load m
  else if instruction = 11 then liftCpu store m
  else if instruction = 12 then in_instr m
  else if instruction = 13 then get m
  else if instruction = 14 then out m
  else if instruction = 15 then put m
  else if instruction = 16 then liftCpu swap m
  else if instruction = 17 then liftCpu push m
  else liftCpu pop m

/-- `cpu_step`: status guard, fetch guard (`0 ≤ ip ≤ stack_top − 1`),
opcode range guard, dispatch; returns 1 only when the executed handler
left the status OK. -/
def cpu_step (m : Machine) : Machine × Int :=
  let c := m.cpu
  if c.status ≠ CpuStatus.ok then (m, 0)
  else
    let index := c.instruction_index
    if index < 0 ∨ c.stack_top - 1 < index then
      ({ m with cpu := { c with status := CpuStatus.invalidAddress } }, 0)
    else
      let instruction := memRead c index
      if instruction < 0 ∨ 18 < instruction then
        ({ m with cpu := { c with status := CpuStatus.illegalInstruction } }, 0)
      else
        let m' := instructions instruction m
        if m'.cpu.status ≠ CpuStatus.ok then (m', 0) else (m', 1)

/-- Iterated `cpu_step` (the advance flag is dropped). -/
def stepN (m : Machine) : Nat → Machine
  | 0 => m
  | n + 1 => stepN (cpu_step m).1 n

/-- The `while` loop of `cpu_run`: step while the status is OK and the
budget remains, returning the final machine and the number of loop
iterations (`performed` in the C source). -/
def cpu_run_loop : Machine → Nat → Machine × Nat
  | m, 0 => (m, 0)
  | m, n + 1 =>
    if m.cpu.status = CpuStatus.ok then
      let r := cpu_run_loop (cpu_step m).1 n
      (r.1, r.2 + 1)
    else (m, 0)

/-- `cpu_run`: early exit on a non-OK status, the loop, then the sign of
the returned count follows the final status. -/
def cpu_run (m : Machine) (steps : Nat) : Machine × Int :=
  if m.cpu.status ≠ CpuStatus.ok then (m, 0)
  else
    let r := cpu_run_loop m steps
    if r.1.cpu.status = CpuStatus.ok ∨ r.1.cpu.status = CpuStatus.halted then
      (r.1, (r.2 : Int))
    else (r.1, -(r.2 : Int))

/-- `cpu_create`: clear the state and install the memory buffer and stack
boundary; `stack_top = stack_bottom − stack_capacity + 1`. -/
def cpu_create (memory : List Int) (stack_bottom : Int) (stack_capacity : Nat) : Cpu :=
  { registers := ⟨0, 0, 0, 0⟩, status := CpuStatus.ok,
    stack_size := 0, instruction_index := 0,
    memory := memory, stack_bottom := stack_bottom,
    stack_top := stack_bottom - (stack_capacity : Int) + 1 }

/-- `memset(p, 0, count * CELL_SIZE)` over cells, starting at index
`start` and moving toward higher indices, the direction memset runs. -/
def memsetZeroFrom (mem : List Int) (start : Nat) : Nat → List Int
  | 0 => mem
  | k + 1 => memsetZeroFrom (mem.set start 0) (start + 1) k

/-- `cpu_reset`: `cpu_clear` first, then
`memset(cpu->stack_bottom, 0, cpu->stack_size * CELL_SIZE)` — note the
clear has already zeroed `stack_size`, so the memset covers zero cells.
The C code finally sets the `stack_bottom` pointer to NULL; a null
pointer has no cell-index representation, so that assignment has no
counterpart here (no claim below depends on it). -/
def cpu_reset (c : Cpu) : Cpu :=
  let c' := cpu_clear c
  { c' with memory := memsetZeroFrom c'.memory c'.stack_bottom.toNat c'.stack_size.toNat }

/-- The byte-reading loop of `cpu_create_memory`: starting from a buffer
capacity and a byte count, grow the capacity by BLOCK_SIZE (4096)
whenever the next byte would not fit, and return the final capacity. -/
def grow_capacity : List Int → Nat → Nat → Nat
  | [], capacity, _ => capacity
  | _ :: rest, capacity, size =>
    if size + 1 > capacity then grow_capacity rest (capacity + 4096) (size + 1)
    else grow_capacity rest capacity (size + 1)

/-- Reinterpret the byte buffer four bytes at a time as `int32_t` cells,
in the order read (the host in the source is little-endian; no byte-order
normalization is performed). -/
def bytesToCells : List Int → List Int
  | b0 :: b1 :: b2 :: b3 :: rest =>
      wrap32 (b0 + 256 * b1 + 65536 * b2 + 16777216 * b3) :: bytesToCells rest
  | _ => []

/-- `cpu_create_memory`: read all bytes (growing the buffer), fail with
the NULL sentinel (`none`) when the byte count is not a multiple of
CELL_SIZE, otherwise extend the buffer until the reserved stack fits,
zero-fill from the end of the program through `stack_bottom`, and return
the cell buffer together with the index of `stack_bottom`.
The second growth amount is written in C as
`((stack_capacity - 1) * CELL_SIZE - capacity + size + BLOCK_SIZE) / BLOCK_SIZE`
evaluated in wrapping `size_t` arithmetic; under the branch guard the
total is nonnegative, so the reassociated form below (subtracting
`capacity` last) computes the same value in `Nat`.
Allocation failure (`malloc`/`realloc` returning NULL) is not modelled:
the model corresponds to the executions in which allocation succeeds. -/
def cpu_create_memory (program : List Int) (stack_capacity : Nat) : Option (List Int × Int) :=
  let capacity0 := grow_capacity program 4096 0
  let size := program.length
  if size % 4 ≠ 0 then none
  else
    let capacity :=
      if capacity0 - size < stack_capacity * 4 then
        capacity0 + 4096 * (((stack_capacity - 1) * 4 + size + 4096 - capacity0) / 4096)
      else capacity0
    let cells := capacity / 4
    let occupied := size / 4
    let memory := bytesToCells program ++ List.replicate (cells - occupied) 0
    some (memory, (cells : Int) - 1)

/-- The construction flow of src/main.c: `cpu_create_memory`, and only
when it did not fail, `cpu_create` on its results. -/
def load_and_create (program : List Int) (stack_capacity : Nat) : Option Cpu :=
  match cpu_create_memory program stack_capacity with
  | none => none
  | some (memory, stack_bottom) => some (cpu_create memory stack_bottom stack_capacity)

/-! ## Helper lemmas -/

theorem getD_set_ne (v d : Int) :
    ∀ (l : List Int) (i j : Nat), i ≠ j → (l.set i v).getD j d = l.getD j d := by
  intro l
  induction l with
  | nil => intro i j _; rfl
  | cons x xs ih =>
    intro i j h
    cases i with
    | zero =>
      cases j with
      | zero => exact absurd rfl h
      | succ j => rfl
    | succ i =>
      cases j with
      | zero => rfl
      | succ j => simpa [List.set, List.getD] using ih i j (by omega)

theorem getD_set_self (v d : Int) :
    ∀ (l : List Int) (i : Nat), i < l.length → (l.set i v).getD i d = v := by
  intro l
  induction l with
  | nil => intro i h; simp at h
  | cons x xs ih =>
    intro i h
    cases i with
    | zero => rfl
    | succ i => simpa [List.set, List.getD] using ih i (by simpa using h)

theorem reg_is_valid_iff (r : Int) : reg_is_valid r = true ↔ 0 ≤ r ∧ r ≤ 3 := by
  simp [reg_is_valid, REGISTER_A, REGISTER_D]

theorem Regs.get_set_self (rs : Regs) (r v : Int) (h : reg_is_valid r = true) :
    (rs.set r v).get r = v := by
  obtain ⟨h0, h3⟩ := (reg_is_valid_iff r).mp h
  interval_cases r <;> simp [Regs.set, Regs.get]

theorem Regs.get_set_ne (rs : Regs) (r s v : Int)
    (hr : reg_is_valid r = true) (hs : reg_is_valid s = true) (hne : r ≠ s) :
    (rs.set r v).get s = rs.get s := by
  obtain ⟨hr0, hr3⟩ := (reg_is_valid_iff r).mp hr
  obtain ⟨hs0, hs3⟩ := (reg_is_valid_iff s).mp hs
  interval_cases r <;> interval_cases s <;> simp_all [Regs.set, Regs.get]

theorem wrap32_eq_self (x : Int) (h1 : -(2 ^ 31) ≤ x) (h2 : x < 2 ^ 31) :
    wrap32 x = x := by
  have e31 : (2 : Int) ^ 31 = 2147483648 := by norm_num
  have e32 : (2 : Int) ^ 32 = 4294967296 := by norm_num
  have hmod : (x + 2 ^ 31) % 2 ^ 32 = x + 2 ^ 31 :=
    Int.emod_eq_of_lt (by omega) (by omega)
  unfold wrap32
  omega

/-! ## Claims -/

/-- C9: a byte source whose total length is not a multiple of 4 makes the
memory loader return the failure sentinel, and no machine state is
constructed from such a program. -/
theorem c9_misaligned_load_fails (program : List Int) (stack_capacity : Nat)
    (h : program.length % 4 ≠ 0) :
    cpu_create_memory program stack_capacity = none ∧
    load_and_create program stack_capacity = none := by
  refine ⟨?_, ?_⟩ <;> simp [cpu_create_memory, load_and_create, h]

/-- C9 witness: a 3-byte program fails to load with stack capacity 256. -/
theorem c9_misaligned_load_fails_witness :
    cpu_create_memory [0, 0, 0] 256 = none ∧ load_and_create [0, 0, 0] 256 = none :=
  c9_misaligned_load_fails [0, 0, 0] 256 (by decide)

/-- A machine whose live stack holds the value 42 in the cell at
`stack_bottom` (stack capacity 2, stack_size 1). -/
def c4_cpu : Cpu :=
  { registers := ⟨5, 6, 7, 8⟩, status := CpuStatus.ok, stack_size := 1,
    instruction_index := 3, memory := [1, 0, 0, 42],
    stack_bottom := 3, stack_top := 2 }

/-- C4: the claim says reset zero-fills the entire stack region; the code
calls `cpu_clear` (zeroing `stack_size`) before the memset whose byte
count is `stack_size * CELL_SIZE`, so nothing is zero-filled: after reset
the registers, status, ip and stack_size are cleared, but the pushed value
42 is still in the stack cell at `stack_bottom`. -/
theorem c4_reset_leaves_stack_cell :
    (cpu_reset c4_cpu).registers = ⟨0, 0, 0, 0⟩ ∧
    (cpu_reset c4_cpu).status = CpuStatus.ok ∧
    (cpu_reset c4_cpu).stack_size = 0 ∧
    (cpu_reset c4_cpu).instruction_index = 0 ∧
    (cpu_reset c4_cpu).memory = [1, 0, 0, 42] ∧
    memRead (cpu_reset c4_cpu) c4_cpu.stack_bottom = 42 := by decide

/-- C3: a step taken when the status is not OK mutates nothing at all and
reports no advance; and a step that fetches opcode 1 (`halt`) from an OK
state sets the status to HALTED, after which a further step is again a
complete no-op. -/
theorem c3_step_nonok_noop :
    (∀ m : Machine, m.cpu.status ≠ CpuStatus.ok → cpu_step m = (m, 0)) ∧
    (∀ m : Machine, m.cpu.status = CpuStatus.ok →
      ¬(m.cpu.instruction_index < 0 ∨ m.cpu.stack_top - 1 < m.cpu.instruction_index) →
      memRead m.cpu m.cpu.instruction_index = 1 →
      (cpu_step m).1.cpu.status = CpuStatus.halted ∧
      cpu_step (cpu_step m).1 = ((cpu_step m).1, 0)) := by
  constructor
  · intro m h
    unfold cpu_step
    simp [h]
  · intro m hok hip hfetch
    have hstep : cpu_step m = ({ m with cpu := { m.cpu with status := CpuStatus.halted } }, 0) := by
      unfold cpu_step
      simp [hok, hip, hfetch, instructions, liftCpu, halt]
    rw [hstep]
    constructor
    · rfl
    · unfold cpu_step
      simp

/-- C3 witness: a machine already in the DIV_BY_ZERO status is frozen by
a step, and a halt instruction at ip 0 halts the machine and freezes it. -/
theorem c3_step_nonok_noop_witness :
    (cpu_step { cpu := { registers := ⟨1, 2, 3, 4⟩, status := CpuStatus.divByZero,
                         stack_size := 0, instruction_index := 0,
                         memory := [1, 0], stack_bottom := 1, stack_top := 1 },
                stdin_tokens := [], stdin_bytes := [], stdout := [] }
       = ({ cpu := { registers := ⟨1, 2, 3, 4⟩, status := CpuStatus.divByZero,
                     stack_size := 0, instruction_index := 0,
                     memory := [1, 0], stack_bottom := 1, stack_top := 1 },
            stdin_tokens := [], stdin_bytes := [], stdout := [] }, 0)) ∧
    ((cpu_step { cpu := cpu_create [1, 0] 1 1, stdin_tokens := [], stdin_bytes := [],
                 stdout := [] }).1.cpu.status = CpuStatus.halted ∧
      cpu_step (cpu_step { cpu := cpu_create [1, 0] 1 1, stdin_tokens := [], stdin_bytes := [],
                           stdout := [] }).1
        = ((cpu_step { cpu := cpu_create [1, 0] 1 1, stdin_tokens := [], stdin_bytes := [],
                       stdout := [] }).1, 0)) :=
  ⟨c3_step_nonok_noop.1 _ (by decide),
   c3_step_nonok_noop.2 _ rfl (by decide) (by decide)⟩

/-- C5: with the input at end-of-stream, `in` and `get` on a valid target
register set C to 0 and then the target register to −1 (so the final C is
−1 when the target is C itself), advance the instruction pointer past the
opcode and operand, and leave the status OK (no error status is set); the
memory and the stack size are untouched. -/
theorem c5_eof_in_get (m : Machine) (r : Int)
    (hok : m.cpu.status = CpuStatus.ok)
    (hr : reg_is_valid r = true)
    (hop : memRead m.cpu (m.cpu.instruction_index + 1) = r)
    (hin : m.stdin_tokens = []) (hbytes : m.stdin_bytes = []) :
    ((in_instr m).cpu.status = CpuStatus.ok ∧
     (in_instr m).cpu.registers.get r = -1 ∧
     (r ≠ REGISTER_C → (in_instr m).cpu.registers.get REGISTER_C = 0) ∧
     (in_instr m).cpu.instruction_index = m.cpu.instruction_index + 2 ∧
     (in_instr m).cpu.memory = m.cpu.memory ∧
     (in_instr m).cpu.stack_size = m.cpu.stack_size) ∧
    ((get m).cpu.status = CpuStatus.ok ∧
     (get m).cpu.registers.get r = -1 ∧
     (r ≠ REGISTER_C → (get m).cpu.registers.get REGISTER_C = 0) ∧
     (get m).cpu.instruction_index = m.cpu.instruction_index + 2 ∧
     (get m).cpu.memory = m.cpu.memory ∧
     (get m).cpu.stack_size = m.cpu.stack_size) := by
  have hC : reg_is_valid REGISTER_C = true := by decide
  have hin' : in_instr m = { m with cpu := handle_eof { m.cpu with instruction_index := m.cpu.instruction_index + 1 } r } := by
    unfold in_instr
    simp [hop, hr, hin]
  have hget' : get m = { m with cpu := handle_eof { m.cpu with instruction_index := m.cpu.instruction_index + 1 } r } := by
    unfold get
    simp [hop, hr, hbytes]
  rw [hin', hget']
  refine ⟨⟨?_, ?_, ?_, ?_, ?_, ?_⟩, ?_, ?_, ?_, ?_, ?_, ?_⟩ <;>
    simp [handle_eof, hok, Regs.get_set_self _ r _ hr]
  · intro hne
    rw [Regs.get_set_ne _ r REGISTER_C _ hr hC hne,
      Regs.get_set_self _ REGISTER_C _ hC]
  · omega
  · intro hne
    rw [Regs.get_set_ne _ r REGISTER_C _ hr hC hne,
      Regs.get_set_self _ REGISTER_C _ hC]
  · omega

/-- C5 witness: `in` and `get` at end-of-stream with target register C
itself (operand cell holds 2): C ends at −1, ip moves from 0 to 2, the
status stays OK. -/
theorem c5_eof_in_get_witness :
    ((in_instr { cpu := cpu_create [12, 2, 0, 0] 3 1, stdin_tokens := [], stdin_bytes := [],
                 stdout := [] }).cpu.status = CpuStatus.ok ∧
     (in_instr { cpu := cpu_create [12, 2, 0, 0] 3 1, stdin_tokens := [], stdin_bytes := [],
                 stdout := [] }).cpu.registers.get 2 = -1 ∧
     ((2 : Int) ≠ REGISTER_C →
      (in_instr { cpu := cpu_create [12, 2, 0, 0] 3 1, stdin_tokens := [], stdin_bytes := [],
                  stdout := [] }).cpu.registers.get REGISTER_C = 0) ∧
     (in_instr { cpu := cpu_create [12, 2, 0, 0] 3 1, stdin_tokens := [], stdin_bytes := [],
                 stdout := [] }).cpu.instruction_index
       = ({ cpu := cpu_create [12, 2, 0, 0] 3 1, stdin_tokens := [], stdin_bytes := [],
            stdout := [] } : Machine).cpu.instruction_index + 2 ∧
     (in_instr { cpu := cpu_create [12, 2, 0, 0] 3 1, stdin_tokens := [], stdin_bytes := [],
                 stdout := [] }).cpu.memory
       = ({ cpu := cpu_create [12, 2, 0, 0] 3 1, stdin_tokens := [], stdin_bytes := [],
            stdout := [] } : Machine).cpu.memory ∧
     (in_instr { cpu := cpu_create [12, 2, 0, 0] 3 1, stdin_tokens := [], stdin_bytes := [],
                 stdout := [] }).cpu.stack_size
       = ({ cpu := cpu_create [12, 2, 0, 0] 3 1, stdin_tokens := [], stdin_bytes := [],
            stdout := [] } : Machine).cpu.stack_size) ∧
    ((get { cpu := cpu_create [12, 2, 0, 0] 3 1, stdin_tokens := [], stdin_bytes := [],
            stdout := [] }).cpu.status = CpuStatus.ok ∧
     (get { cpu := cpu_create [12, 2, 0, 0] 3 1, stdin_tokens := [], stdin_bytes := [],
            stdout := [] }).cpu.registers.get 2 = -1 ∧
     ((2 : Int) ≠ REGISTER_C →
      (get { cpu := cpu_create [12, 2, 0, 0] 3 1, stdin_tokens := [], stdin_bytes := [],
             stdout := [] }).cpu.registers.get REGISTER_C = 0) ∧
     (get { cpu := cpu_create [12, 2, 0, 0] 3 1, stdin_tokens := [], stdin_bytes := [],
            stdout := [] }).cpu.instruction_index
       = ({ cpu := cpu_create [12, 2, 0, 0] 3 1, stdin_tokens := [], stdin_bytes := [],
            stdout := [] } : Machine).cpu.instruction_index + 2 ∧
     (get { cpu := cpu_create [12, 2, 0, 0] 3 1, stdin_tokens := [], stdin_bytes := [],
            stdout := [] }).cpu.memory
       = ({ cpu := cpu_create [12, 2, 0, 0] 3 1, stdin_tokens := [], stdin_bytes := [],
            stdout := [] } : Machine).cpu.memory ∧
     (get { cpu := cpu_create [12, 2, 0, 0] 3 1, stdin_tokens := [], stdin_bytes := [],
            stdout := [] }).cpu.stack_size
       = ({ cpu := cpu_create [12, 2, 0, 0] 3 1, stdin_tokens := [], stdin_bytes := [],
            stdout := [] } : Machine).cpu.stack_size) :=
  c5_eof_in_get _ 2 rfl (by decide) (by decide) rfl rfl

/-- C6: for a valid register operand r, `div` with value(r) = 0 sets
DIV_BY_ZERO and leaves the whole register file (in particular A)
unchanged; with value(r) ≠ 0 and the quotient representable in `int32_t`
(the INT_MIN / −1 case is undefined behaviour in the C source), A becomes
A tdiv value(r) — integer division truncating toward zero — and the
instruction pointer advances past the opcode and the operand. -/
theorem c6_div_reg (c : Cpu) (r : Int)
    (hr : reg_is_valid r = true)
    (hop : memRead c (c.instruction_index + 1) = r) :
    (c.registers.get r = 0 →
      (div_reg c).status = CpuStatus.divByZero ∧
      (div_reg c).registers = c.registers ∧
      (div_reg c).memory = c.memory ∧
      (div_reg c).stack_size = c.stack_size) ∧
    (c.registers.get r ≠ 0 →
      -(2 ^ 31) ≤ (c.registers.get REGISTER_A).tdiv (c.registers.get r) →
      (c.registers.get REGISTER_A).tdiv (c.registers.get r) < 2 ^ 31 →
      (div_reg c).registers.get REGISTER_A
          = (c.registers.get REGISTER_A).tdiv (c.registers.get r) ∧
      (div_reg c).status = c.status ∧
      (div_reg c).instruction_index = c.instruction_index + 2) := by
  have hA : reg_is_valid REGISTER_A = true := by decide
  constructor
  · intro hz
    unfold div_reg
    simp [hop, hr, hz]
  · intro hnz hlo hhi
    have hdiv : div_reg c = { c with
        registers := c.registers.set REGISTER_A (wrap32 ((c.registers.get REGISTER_A).tdiv (c.registers.get r))),
        instruction_index := c.instruction_index + 1 + 1 } := by
      unfold div_reg
      simp [hop, hr, hnz]
    rw [hdiv]
    refine ⟨?_, rfl, ?_⟩
    · rw [Regs.get_set_self _ REGISTER_A _ hA, wrap32_eq_self _ hlo hhi]
    · show c.instruction_index + 1 + 1 = c.instruction_index + 2
      omega

/-- A cpu about to run `div B` with A = −7 and B = 0. -/
def c6_cpu_zero : Cpu :=
  { registers := ⟨-7, 0, 0, 0⟩, status := CpuStatus.ok, stack_size := 0,
    instruction_index := 0, memory := [5, 1, 0, 0], stack_bottom := 3,
    stack_top := 2 }

/-- A cpu about to run `div B` with A = −7 and B = 2. -/
def c6_cpu_two : Cpu :=
  { registers := ⟨-7, 2, 0, 0⟩, status := CpuStatus.ok, stack_size := 0,
    instruction_index := 0, memory := [5, 1, 0, 0], stack_bottom := 3,
    stack_top := 2 }

/-- C6 witness: dividing A = −7 by B = 2 (operand cell 1) truncates toward
zero to −3 and moves ip from 0 to 2; with B = 0 the same instruction sets
DIV_BY_ZERO and leaves the registers alone. -/
theorem c6_div_reg_witness :
    (c6_cpu_zero.registers.get 1 = 0 →
      (div_reg c6_cpu_zero).status = CpuStatus.divByZero ∧
      (div_reg c6_cpu_zero).registers = c6_cpu_zero.registers ∧
      (div_reg c6_cpu_zero).memory = c6_cpu_zero.memory ∧
      (div_reg c6_cpu_zero).stack_size = c6_cpu_zero.stack_size) ∧
    (c6_cpu_two.registers.get 1 ≠ 0 →
      -(2 ^ 31) ≤ (c6_cpu_two.registers.get REGISTER_A).tdiv (c6_cpu_two.registers.get 1) →
      (c6_cpu_two.registers.get REGISTER_A).tdiv (c6_cpu_two.registers.get 1) < 2 ^ 31 →
      (div_reg c6_cpu_two).registers.get REGISTER_A
          = (c6_cpu_two.registers.get REGISTER_A).tdiv (c6_cpu_two.registers.get 1) ∧
      (div_reg c6_cpu_two).status = c6_cpu_two.status ∧
      (div_reg c6_cpu_two).instruction_index = c6_cpu_two.instruction_index + 2) :=
  ⟨(c6_div_reg c6_cpu_zero 1 (by decide) (by decide)).1,
   (c6_div_reg c6_cpu_two 1 (by decide) (by decide)).2⟩

/-- C7: `push` on a valid register operand with the stack at capacity
(stack_size = stack_bottom − stack_top + 1) sets INVALID_STACK_OPERATION
leaving stack_size and every memory cell unchanged, and `pop` with
stack_size = 0 sets INVALID_STACK_OPERATION leaving stack_size (and the
memory and registers) unchanged. -/
theorem c7_push_pop_guards (c : Cpu) (r : Int)
    (hr : reg_is_valid r = true)
    (hop : memRead c (c.instruction_index + 1) = r) :
    (c.stack_size = c.stack_bottom - c.stack_top + 1 →
      (push c).status = CpuStatus.invalidStackOperation ∧
      (push c).stack_size = c.stack_size ∧
      (push c).memory = c.memory ∧
      (push c).registers = c.registers) ∧
    (c.stack_size = 0 →
      (pop c).status = CpuStatus.invalidStackOperation ∧
      (pop c).stack_size = c.stack_size ∧
      (pop c).memory = c.memory ∧
      (pop c).registers = c.registers) := by
  constructor
  · intro hfull
    unfold push
    simp [hop, hr, hfull]
  · intro hempty
    unfold pop
    simp [hop, hr, hempty]

/-- A cpu with a full stack (capacity 2, stack_size 2) about to `push A`. -/
def c7_cpu_full : Cpu :=
  { registers := ⟨9, 0, 0, 0⟩, status := CpuStatus.ok, stack_size := 2,
    instruction_index := 0, memory := [17, 0, 5, 6], stack_bottom := 3,
    stack_top := 2 }

/-- A cpu with an empty stack about to `pop A`. -/
def c7_cpu_empty : Cpu :=
  { registers := ⟨9, 0, 0, 0⟩, status := CpuStatus.ok, stack_size := 0,
    instruction_index := 0, memory := [18, 0, 5, 6], stack_bottom := 3,
    stack_top := 2 }

/-- C7 witness: with stack capacity 2 and stack_size 2, `push A` at ip 0
fails with INVALID_STACK_OPERATION changing neither stack_size nor
memory; with stack_size 0, `pop A` fails the same way. -/
theorem c7_push_pop_guards_witness :
    (c7_cpu_full.stack_size = c7_cpu_full.stack_bottom - c7_cpu_full.stack_top + 1 →
      (push c7_cpu_full).status = CpuStatus.invalidStackOperation ∧
      (push c7_cpu_full).stack_size = c7_cpu_full.stack_size ∧
      (push c7_cpu_full).memory = c7_cpu_full.memory ∧
      (push c7_cpu_full).registers = c7_cpu_full.registers) ∧
    (c7_cpu_empty.stack_size = 0 →
      (pop c7_cpu_empty).status = CpuStatus.invalidStackOperation ∧
      (pop c7_cpu_empty).stack_size = c7_cpu_empty.stack_size ∧
      (pop c7_cpu_empty).memory = c7_cpu_empty.memory ∧
      (pop c7_cpu_empty).registers = c7_cpu_empty.registers) :=
  ⟨(c7_push_pop_guards c7_cpu_full 0 (by decide) (by decide)).1,
   (c7_push_pop_guards c7_cpu_empty 0 (by decide) (by decide)).2⟩

/-- The `while` loop of `cpu_run` performs some number `k ≤ n` of
single-step iterations, its final machine is exactly `stepN` of the start
machine, and at least one iteration runs when the machine starts OK with
a positive budget. -/
theorem cpu_run_loop_spec : ∀ (n : Nat) (m : Machine),
    (cpu_run_loop m n).2 ≤ n ∧
    (cpu_run_loop m n).1 = stepN m (cpu_run_loop m n).2 ∧
    (m.cpu.status = CpuStatus.ok → 0 < n → 0 < (cpu_run_loop m n).2) := by
  intro n
  induction n with
  | zero =>
    intro m
    exact ⟨Nat.le_refl 0, rfl, fun _ h => absurd h (by omega)⟩
  | succ k ih =>
    intro m
    by_cases h : m.cpu.status = CpuStatus.ok
    · obtain ⟨h1, h2, _⟩ := ih (cpu_step m).1
      unfold cpu_run_loop
      simp only [h, if_true]
      refine ⟨by omega, ?_, fun _ _ => by omega⟩
      have hs : ∀ j : Nat, stepN m (j + 1) = stepN (cpu_step m).1 j := fun _ => rfl
      rw [hs]
      exact h2
    · unfold cpu_run_loop
      simp only [h, if_false]
      exact ⟨by omega, rfl, fun hok _ => hok.elim⟩

/-- C2 (amended): starting from an OK machine with budget N, `cpu_run`
performs some count k ≤ N of single-step invocations (its final machine
is exactly k iterated steps), returns k when the final status is OK or
HALTED and −k when the final status is an error, and k is positive
whenever N is (with budget 0 the returned count is 0, not positive). -/
theorem c2_run_budget (m : Machine) (N : Nat) (h : m.cpu.status = CpuStatus.ok) :
    ∃ k : Nat, k ≤ N ∧
      (cpu_run m N).1 = stepN m k ∧
      (cpu_run m N).2
        = (if (stepN m k).cpu.status = CpuStatus.ok ∨ (stepN m k).cpu.status = CpuStatus.halted
           then (k : Int) else -(k : Int)) ∧
      (0 < N → 0 < k) := by
  obtain ⟨h1, h2, h3⟩ := cpu_run_loop_spec N m
  have hrun : cpu_run m N =
      ((cpu_run_loop m N).1,
        if (cpu_run_loop m N).1.cpu.status = CpuStatus.ok ∨
            (cpu_run_loop m N).1.cpu.status = CpuStatus.halted
        then ((cpu_run_loop m N).2 : Int) else -((cpu_run_loop m N).2 : Int)) := by
    unfold cpu_run
    simp only [h, ne_eq, not_true_eq_false, if_false]
    split <;> simp_all
  refine ⟨(cpu_run_loop m N).2, h1, ?_, ?_, fun hN => h3 h hN⟩
  · rw [hrun]
    exact h2
  · rw [hrun, ← h2]

/-- A freshly created machine (all-nop program, stack capacity 1),
status OK. -/
def c2_machine : Machine :=
  { cpu := cpu_create [0, 0, 0, 0] 3 1, stdin_tokens := [], stdin_bytes := [], stdout := [] }

/-- C2 counterexample: from an OK machine with budget N = 0 the run stops
because the budget is exhausted (exit status still OK), yet the returned
value is 0 — the claim calls the returned count positive in that case. -/
theorem c2_run_budget_counterexample :
    c2_machine.cpu.status = CpuStatus.ok ∧
    (cpu_run c2_machine 0).1.cpu.status = CpuStatus.ok ∧
    (cpu_run c2_machine 0).2 = 0 ∧
    ¬ 0 < (cpu_run c2_machine 0).2 := by decide

/-- C2 witness: from an OK machine running an all-nop program with budget
3, the run performs k steps with the properties of `c2_run_budget`. -/
theorem c2_run_budget_witness :
    ∃ k : Nat, k ≤ 3 ∧
      (cpu_run c2_machine 3).1 = stepN c2_machine k ∧
      (cpu_run c2_machine 3).2
        = (if (stepN c2_machine k).cpu.status = CpuStatus.ok ∨
              (stepN c2_machine k).cpu.status = CpuStatus.halted
           then (k : Int) else -(k : Int)) ∧
      (0 < 3 → 0 < k) :=
  c2_run_budget c2_machine 3 rfl

/-- The initial machine of the program movr C,1; loop 100 with stack
capacity 2: memory [9, 2, 1, 8, 100, 0, 0, 0], stack_top index 6, so the
code bounds are [0, 6). -/
def c1_machine : Machine :=
  { cpu := cpu_create [9, 2, 1, 8, 100, 0, 0, 0] 7 2,
    stdin_tokens := [], stdin_bytes := [], stdout := [] }

/-- C1 counterexample: two steps from the initial state (movr C,1 and
then the taken loop to target 100) reach a state whose status is still OK
while the instruction pointer is 100, far outside the code bounds
[0, stack_top) — the loop jump is not validated until the next fetch. -/
theorem c1_ip_bounds_counterexample :
    (stepN c1_machine 2).cpu.status = CpuStatus.ok ∧
    ¬ (stepN c1_machine 2).cpu.instruction_index < (stepN c1_machine 2).cpu.stack_top := by
  decide

/-- C1 (amended): the code-bounds check on the instruction pointer holds
at every fetch rather than at every reachable OK state: a step taken from
an OK state whose instruction pointer lies outside [0, stack_top) sets
INVALID_ADDRESS, executes no instruction and changes nothing else, so an
out-of-bounds ip left by a taken loop is caught before any further
execution. -/
theorem c1_fetch_guard (m : Machine)
    (hok : m.cpu.status = CpuStatus.ok)
    (hip : m.cpu.instruction_index < 0 ∨ m.cpu.stack_top - 1 < m.cpu.instruction_index) :
    cpu_step m = ({ m with cpu := { m.cpu with status := CpuStatus.invalidAddress } }, 0) := by
  unfold cpu_step
  simp [hok, hip]

/-- C1 witness: on the out-of-bounds OK state reached in the
counterexample, the very next step only flips the status to
INVALID_ADDRESS. -/
theorem c1_fetch_guard_witness :
    cpu_step (stepN c1_machine 2)
      = ({ stepN c1_machine 2 with cpu := { (stepN c1_machine 2).cpu with status := CpuStatus.invalidAddress } }, 0) :=
  c1_fetch_guard (stepN c1_machine 2) (by decide) (by decide)

/-- A step from an OK state whose fetch succeeds and whose handler leaves
the status OK executes the dispatched handler and reports an advance. -/
theorem cpu_step_exec_ok (m : Machine)
    (hok : m.cpu.status = CpuStatus.ok)
    (hip0 : 0 ≤ m.cpu.instruction_index)
    (hip1 : m.cpu.instruction_index ≤ m.cpu.stack_top - 1)
    (hop0 : 0 ≤ memRead m.cpu m.cpu.instruction_index)
    (hop18 : memRead m.cpu m.cpu.instruction_index ≤ 18)
    (hst : (instructions (memRead m.cpu m.cpu.instruction_index) m).cpu.status = CpuStatus.ok) :
    cpu_step m = (instructions (memRead m.cpu m.cpu.instruction_index) m, 1) := by
  have h1 : ¬(m.cpu.instruction_index < 0 ∨ m.cpu.stack_top - 1 < m.cpu.instruction_index) := by
    omega
  have h2 : ¬(memRead m.cpu m.cpu.instruction_index < 0 ∨
      18 < memRead m.cpu m.cpu.instruction_index) := by omega
  unfold cpu_step
  simp [hok, h1, h2, hst]

/-- C8: from any OK state with room on the stack (stack_size < capacity),
whose next two instructions are push r; pop r2 with r2 another valid
register, the two steps leave r2 holding the pushed value of r, restore
stack_size to its pre-push value, and keep the status OK. -/
theorem c8_push_pop_roundtrip (m : Machine) (r r2 : Int)
    (hok : m.cpu.status = CpuStatus.ok)
    (hr : reg_is_valid r = true) (hr2 : reg_is_valid r2 = true) (_hne : r ≠ r2)
    (hip0 : 0 ≤ m.cpu.instruction_index)
    (hip3 : m.cpu.instruction_index + 3 < m.cpu.stack_top)
    (hss0 : 0 ≤ m.cpu.stack_size)
    (hsscap : m.cpu.stack_size < m.cpu.stack_bottom - m.cpu.stack_top + 1)
    (hsb : m.cpu.stack_bottom < (m.cpu.memory.length : Int))
    (h17 : memRead m.cpu m.cpu.instruction_index = 17)
    (hopr : memRead m.cpu (m.cpu.instruction_index + 1) = r)
    (h18 : memRead m.cpu (m.cpu.instruction_index + 2) = 18)
    (hopr2 : memRead m.cpu (m.cpu.instruction_index + 3) = r2) :
    (cpu_step (cpu_step m).1).1.cpu.registers.get r2 = m.cpu.registers.get r ∧
    (cpu_step (cpu_step m).1).1.cpu.stack_size = m.cpu.stack_size ∧
    (cpu_step (cpu_step m).1).1.cpu.status = CpuStatus.ok := by
  have hnfull : ¬ m.cpu.stack_size = m.cpu.stack_bottom - m.cpu.stack_top + 1 := by omega
  have hpush : push m.cpu = { m.cpu with memory := memWrite m.cpu (m.cpu.stack_bottom - m.cpu.stack_size) (m.cpu.registers.get r), stack_size := m.cpu.stack_size + 1, instruction_index := m.cpu.instruction_index + 1 + 1 } := by
    unfold push
    simp [hopr, hr, hnfull]
  have hstep1 : cpu_step m = ({ m with cpu := push m.cpu }, 1) := by
    have hst : (instructions (memRead m.cpu m.cpu.instruction_index) m).cpu.status
        = CpuStatus.ok := by
      rw [h17]
      show (push m.cpu).status = CpuStatus.ok
      rw [hpush]
      exact hok
    have hs := cpu_step_exec_ok m hok hip0 (by omega) (by omega) (by omega) hst
    rw [hs, h17]
    rfl
  set c1 : Cpu := { m.cpu with memory := memWrite m.cpu (m.cpu.stack_bottom - m.cpu.stack_size) (m.cpu.registers.get r), stack_size := m.cpu.stack_size + 1, instruction_index := m.cpu.instruction_index + 1 + 1 } with hc1
  have hm1 : (cpu_step m).1 = { m with cpu := c1 } := by
    rw [hstep1, hpush]
  have hread3 : memRead c1 (c1.instruction_index + 1) = r2 := by
    show ((m.cpu.memory.set (m.cpu.stack_bottom - m.cpu.stack_size).toNat (m.cpu.registers.get r)).getD (m.cpu.instruction_index + 1 + 1 + 1).toNat 0) = r2
    rw [getD_set_ne _ _ _ _ _ (by omega : (m.cpu.stack_bottom - m.cpu.stack_size).toNat ≠ (m.cpu.instruction_index + 1 + 1 + 1).toNat)]
    rw [show (m.cpu.instruction_index + 1 + 1 + 1) = m.cpu.instruction_index + 3 from by omega]
    exact hopr2
  have hreadv : memRead c1 (m.cpu.stack_bottom - m.cpu.stack_size) = m.cpu.registers.get r := by
    show ((m.cpu.memory.set (m.cpu.stack_bottom - m.cpu.stack_size).toNat (m.cpu.registers.get r)).getD (m.cpu.stack_bottom - m.cpu.stack_size).toNat 0) = m.cpu.registers.get r
    exact getD_set_self _ _ _ _ (by omega)
  have hnneg : ¬ c1.stack_size ≤ 0 := by
    show ¬ m.cpu.stack_size + 1 ≤ 0
    omega
  have hpop : pop c1 = { c1 with registers := c1.registers.set r2 (m.cpu.registers.get r), memory := memWrite c1 (c1.stack_bottom - (c1.stack_size - 1)) 0, stack_size := c1.stack_size - 1, instruction_index := c1.instruction_index + 1 + 1 } := by
    unfold pop
    simp [hread3, hr2, hnneg, hreadv]
  have hok1 : ({ m with cpu := c1 } : Machine).cpu.status = CpuStatus.ok := hok
  have hfetch2 : memRead ({ m with cpu := c1 } : Machine).cpu
      ({ m with cpu := c1 } : Machine).cpu.instruction_index = 18 := by
    show ((m.cpu.memory.set (m.cpu.stack_bottom - m.cpu.stack_size).toNat (m.cpu.registers.get r)).getD (m.cpu.instruction_index + 1 + 1).toNat 0) = 18
    rw [getD_set_ne _ _ _ _ _ (by omega : (m.cpu.stack_bottom - m.cpu.stack_size).toNat ≠ (m.cpu.instruction_index + 1 + 1).toNat)]
    rw [show (m.cpu.instruction_index + 1 + 1) = m.cpu.instruction_index + 2 from by omega]
    exact h18
  have hstep2 : cpu_step { m with cpu := c1 } = ({ m with cpu := pop c1 }, 1) := by
    have hst2 : (instructions (memRead ({ m with cpu := c1 } : Machine).cpu ({ m with cpu := c1 } : Machine).cpu.instruction_index) { m with cpu := c1 }).cpu.status = CpuStatus.ok := by
      rw [hfetch2]
      show (pop c1).status = CpuStatus.ok
      rw [hpop]
      exact hok
    have hs2 := cpu_step_exec_ok { m with cpu := c1 } hok1
      (by show 0 ≤ m.cpu.instruction_index + 1 + 1; omega)
      (by show m.cpu.instruction_index + 1 + 1 ≤ m.cpu.stack_top - 1; omega)
      (by omega) (by omega) hst2
    rw [hs2, hfetch2]
    rfl
  rw [hm1, hstep2]
  refine ⟨?_, ?_, ?_⟩
  · show (pop c1).registers.get r2 = m.cpu.registers.get r
    rw [hpop]
    exact Regs.get_set_self _ r2 _ hr2
  · show (pop c1).stack_size = m.cpu.stack_size
    rw [hpop]
    show m.cpu.stack_size + 1 - 1 = m.cpu.stack_size
    omega
  · show (pop c1).status = CpuStatus.ok
    rw [hpop]
    exact hok

/-- A machine with A = 7 about to run push A; pop B (memory
[17, 0, 18, 1, 0, 0, 0, 0], stack capacity 2, stack_top index 6). -/
def c8_machine : Machine :=
  { cpu := { registers := ⟨7, 0, 0, 0⟩, status := CpuStatus.ok, stack_size := 0,
             instruction_index := 0, memory := [17, 0, 18, 1, 0, 0, 0, 0],
             stack_bottom := 7, stack_top := 6 },
    stdin_tokens := [], stdin_bytes := [], stdout := [] }

/-- C8 witness: push A; pop B with A = 7 leaves B = 7, stack_size back at
0 and the status OK. -/
theorem c8_push_pop_roundtrip_witness :
    (cpu_step (cpu_step c8_machine).1).1.cpu.registers.get 1
      = c8_machine.cpu.registers.get 0 ∧
    (cpu_step (cpu_step c8_machine).1).1.cpu.stack_size = c8_machine.cpu.stack_size ∧
    (cpu_step (cpu_step c8_machine).1).1.cpu.status = CpuStatus.ok :=
  c8_push_pop_roundtrip c8_machine 0 1 rfl (by decide) (by decide) (by decide) (by decide)
    (by decide) (by decide) (by decide) (by decide) (by decide) (by decide) (by decide)
    (by decide)

/-- The cpu-level frame: everything except status and ip is unchanged. -/
def CpuFrame (c c' : Cpu) : Prop :=
  c'.registers = c.registers ∧ c'.memory = c.memory ∧ c'.stack_size = c.stack_size ∧
  c'.stack_bottom = c.stack_bottom ∧ c'.stack_top = c.stack_top

/-- The machine-level frame: cpu frame plus untouched I/O streams. -/
def MachineFrame (m m' : Machine) : Prop :=
  CpuFrame m.cpu m'.cpu ∧ m'.stdin_tokens = m.stdin_tokens ∧
  m'.stdin_bytes = m.stdin_bytes ∧ m'.stdout = m.stdout

theorem liftCpu_frame {f : Cpu → Cpu} (m : Machine) (hf : CpuFrame m.cpu (f m.cpu)) :
    MachineFrame m (liftCpu f m) := ⟨hf, rfl, rfl, rfl⟩

theorem nop_err_frame (c : Cpu) (hok : c.status = CpuStatus.ok)
    (h : (nop c).status ≠ CpuStatus.ok ∧ (nop c).status ≠ CpuStatus.halted) :
    CpuFrame c (nop c) :=
  absurd (by simp [nop, hok]) h.1

theorem halt_err_frame (c : Cpu) (_hok : c.status = CpuStatus.ok)
    (h : (halt c).status ≠ CpuStatus.ok ∧ (halt c).status ≠ CpuStatus.halted) :
    CpuFrame c (halt c) :=
  absurd (by simp [halt]) h.2

theorem add_err_frame (c : Cpu) (hok : c.status = CpuStatus.ok)
    (h : (add c).status ≠ CpuStatus.ok ∧ (add c).status ≠ CpuStatus.halted) :
    CpuFrame c (add c) := by
  by_cases hv : reg_is_valid (memRead c (c.instruction_index + 1))
  · exact absurd (by unfold add; simp [hv, hok]) h.1
  · unfold add
    simp [hv, CpuFrame]

theorem sub_err_frame (c : Cpu) (hok : c.status = CpuStatus.ok)
    (h : (sub c).status ≠ CpuStatus.ok ∧ (sub c).status ≠ CpuStatus.halted) :
    CpuFrame c (sub c) := by
  by_cases hv : reg_is_valid (memRead c (c.instruction_index + 1))
  · exact absurd (by unfold sub; simp [hv, hok]) h.1
  · unfold sub
    simp [hv, CpuFrame]

theorem mul_err_frame (c : Cpu) (hok : c.status = CpuStatus.ok)
    (h : (mul c).status ≠ CpuStatus.ok ∧ (mul c).status ≠ CpuStatus.halted) :
    CpuFrame c (mul c) := by
  by_cases hv : reg_is_valid (memRead c (c.instruction_index + 1))
  · exact absurd (by unfold mul; simp [hv, hok]) h.1
  · unfold mul
    simp [hv, CpuFrame]

theorem div_reg_err_frame (c : Cpu) (hok : c.status = CpuStatus.ok)
    (h : (div_reg c).status ≠ CpuStatus.ok ∧ (div_reg c).status ≠ CpuStatus.halted) :
    CpuFrame c (div_reg c) := by
  by_cases hv : reg_is_valid (memRead c (c.instruction_index + 1))
  · by_cases hz : c.registers.get (memRead c (c.instruction_index + 1)) = 0
    · unfold div_reg
      simp [hv, hz, CpuFrame]
    · exact absurd (by unfold div_reg; simp [hv, hz, hok]) h.1
  · unfold div_reg
    simp [hv, CpuFrame]

theorem inc_err_frame (c : Cpu) (hok : c.status = CpuStatus.ok)
    (h : (inc c).status ≠ CpuStatus.ok ∧ (inc c).status ≠ CpuStatus.halted) :
    CpuFrame c (inc c) := by
  by_cases hv : reg_is_valid (memRead c (c.instruction_index + 1))
  · exact absurd (by unfold inc; simp [hv, hok]) h.1
  · unfold inc
    simp [hv, CpuFrame]

theorem dec_err_frame (c : Cpu) (hok : c.status = CpuStatus.ok)
    (h : (dec c).status ≠ CpuStatus.ok ∧ (dec c).status ≠ CpuStatus.halted) :
    CpuFrame c (dec c) := by
  by_cases hv : reg_is_valid (memRead c (c.instruction_index + 1))
  · exact absurd (by unfold dec; simp [hv, hok]) h.1
  · unfold dec
    simp [hv, CpuFrame]

theorem loop_err_frame (c : Cpu) (hok : c.status = CpuStatus.ok)
    (h : (loop c).status ≠ CpuStatus.ok ∧ (loop c).status ≠ CpuStatus.halted) :
    CpuFrame c (loop c) := by
  by_cases hz : c.registers.get REGISTER_C = 0
  · exact absurd (by unfold loop; simp [hz, hok]) h.1
  · exact absurd (by unfold loop; simp [hz, hok]) h.1

theorem movr_err_frame (c : Cpu) (hok : c.status = CpuStatus.ok)
    (h : (movr c).status ≠ CpuStatus.ok ∧ (movr c).status ≠ CpuStatus.halted) :
    CpuFrame c (movr c) := by
  by_cases hv : reg_is_valid (memRead c (c.instruction_index + 1))
  · exact absurd (by unfold movr; simp [hv, hok]) h.1
  · unfold movr
    simp [hv, CpuFrame]

theorem load_err_frame (c : Cpu) (hok : c.status = CpuStatus.ok)
    (h : (load c).status ≠ CpuStatus.ok ∧ (load c).status ≠ CpuStatus.halted) :
    CpuFrame c (load c) := by
  by_cases hv : reg_is_valid (memRead c (c.instruction_index + 1))
  · by_cases hw : 0 ≤ c.registers.get REGISTER_D + memRead c (c.instruction_index + 1 + 1)
        ∧ c.stack_bottom - c.stack_size + (c.registers.get REGISTER_D + memRead c (c.instruction_index + 1 + 1)) + 1
          ≤ c.stack_bottom
    · exact absurd (by unfold load init_reg_target_address; simp [hv, in_stack, hw, hok]) h.1
    · unfold load init_reg_target_address
      simp [hv, in_stack, hw, CpuFrame]
  · unfold load init_reg_target_address
    simp [hv, CpuFrame]

theorem store_err_frame (c : Cpu) (hok : c.status = CpuStatus.ok)
    (h : (store c).status ≠ CpuStatus.ok ∧ (store c).status ≠ CpuStatus.halted) :
    CpuFrame c (store c) := by
  by_cases hv : reg_is_valid (memRead c (c.instruction_index + 1))
  · by_cases hw : 0 ≤ c.registers.get REGISTER_D + memRead c (c.instruction_index + 1 + 1)
        ∧ c.stack_bottom - c.stack_size + (c.registers.get REGISTER_D + memRead c (c.instruction_index + 1 + 1)) + 1
          ≤ c.stack_bottom
    · exact absurd (by unfold store init_reg_target_address; simp [hv, in_stack, hw, hok]) h.1
    · unfold store init_reg_target_address
      simp [hv, in_stack, hw, CpuFrame]
  · unfold store init_reg_target_address
    simp [hv, CpuFrame]

theorem in_instr_err_frame (m : Machine) (hok : m.cpu.status = CpuStatus.ok)
    (h : (in_instr m).cpu.status ≠ CpuStatus.ok ∧ (in_instr m).cpu.status ≠ CpuStatus.halted) :
    MachineFrame m (in_instr m) := by
  by_cases hv : reg_is_valid (memRead m.cpu (m.cpu.instruction_index + 1))
  · cases htok : m.stdin_tokens with
    | nil => exact absurd (by unfold in_instr; simp [hv, htok, handle_eof, hok]) h.1
    | cons t rest =>
      cases t with
      | ok n => exact absurd (by unfold in_instr; simp [hv, htok, hok]) h.1
      | fail =>
        unfold in_instr
        simp [hv, htok, CpuFrame, MachineFrame]
  · unfold in_instr
    simp [hv, CpuFrame, MachineFrame]

theorem get_err_frame (m : Machine) (hok : m.cpu.status = CpuStatus.ok)
    (h : (get m).cpu.status ≠ CpuStatus.ok ∧ (get m).cpu.status ≠ CpuStatus.halted) :
    MachineFrame m (get m) := by
  by_cases hv : reg_is_valid (memRead m.cpu (m.cpu.instruction_index + 1))
  · cases hb : m.stdin_bytes with
    | nil => exact absurd (by unfold get; simp [hv, hb, handle_eof, hok]) h.1
    | cons b rest => exact absurd (by unfold get; simp [hv, hb, hok]) h.1
  · unfold get
    simp [hv, CpuFrame, MachineFrame]

theorem out_err_frame (m : Machine) (hok : m.cpu.status = CpuStatus.ok)
    (h : (out m).cpu.status ≠ CpuStatus.ok ∧ (out m).cpu.status ≠ CpuStatus.halted) :
    MachineFrame m (out m) := by
  by_cases hv : reg_is_valid (memRead m.cpu (m.cpu.instruction_index + 1))
  · exact absurd (by unfold out; simp [hv, hok]) h.1
  · unfold out
    simp [hv, CpuFrame, MachineFrame]

theorem put_err_frame (m : Machine) (hok : m.cpu.status = CpuStatus.ok)
    (h : (put m).cpu.status ≠ CpuStatus.ok ∧ (put m).cpu.status ≠ CpuStatus.halted) :
    MachineFrame m (put m) := by
  by_cases hv : reg_is_valid (memRead m.cpu (m.cpu.instruction_index + 1))
  · by_cases hrange : m.cpu.registers.get (memRead m.cpu (m.cpu.instruction_index + 1)) < 0 ∨
        255 < m.cpu.registers.get (memRead m.cpu (m.cpu.instruction_index + 1))
    · unfold put
      simp [hv, hrange, CpuFrame, MachineFrame]
    · exact absurd (by unfold put; simp [hv, hrange, hok]) h.1
  · unfold put
    simp [hv, CpuFrame, MachineFrame]

theorem swap_err_frame (c : Cpu) (hok : c.status = CpuStatus.ok)
    (h : (swap c).status ≠ CpuStatus.ok ∧ (swap c).status ≠ CpuStatus.halted) :
    CpuFrame c (swap c) := by
  by_cases hv1 : reg_is_valid (memRead c (c.instruction_index + 1))
  · by_cases hv2 : reg_is_valid (memRead c (c.instruction_index + 1 + 1))
    · exact absurd (by unfold swap; simp [hv1, hv2, hok]) h.1
    · unfold swap
      simp [hv1, hv2, CpuFrame]
  · unfold swap
    simp [hv1, CpuFrame]

theorem push_err_frame (c : Cpu) (hok : c.status = CpuStatus.ok)
    (h : (push c).status ≠ CpuStatus.ok ∧ (push c).status ≠ CpuStatus.halted) :
    CpuFrame c (push c) := by
  by_cases hv : reg_is_valid (memRead c (c.instruction_index + 1))
  · by_cases hfull : c.stack_size = c.stack_bottom - c.stack_top + 1
    · unfold push
      simp [hv, hfull, CpuFrame]
    · exact absurd (by unfold push; simp [hv, hfull, hok]) h.1
  · unfold push
    simp [hv, CpuFrame]

theorem pop_err_frame (c : Cpu) (hok : c.status = CpuStatus.ok)
    (h : (pop c).status ≠ CpuStatus.ok ∧ (pop c).status ≠ CpuStatus.halted) :
    CpuFrame c (pop c) := by
  by_cases hv : reg_is_valid (memRead c (c.instruction_index + 1))
  · by_cases hempty : c.stack_size ≤ 0
    · unfold pop
      simp [hv, hempty, CpuFrame]
    · exact absurd (by unfold pop; simp [hv, hempty, hok]) h.1
  · unfold pop
    simp [hv, CpuFrame]

/-- Dispatching any in-range opcode from an OK state that ends in an
error status (neither OK nor HALTED) leaves the frame intact. -/
theorem instructions_err_frame (k : Int) (m : Machine)
    (hok : m.cpu.status = CpuStatus.ok) (h0 : 0 ≤ k) (h18 : k ≤ 18)
    (h : (instructions k m).cpu.status ≠ CpuStatus.ok ∧
         (instructions k m).cpu.status ≠ CpuStatus.halted) :
    MachineFrame m (instructions k m) := by
  interval_cases k
  · exact liftCpu_frame m (nop_err_frame m.cpu hok h)
  · exact liftCpu_frame m (halt_err_frame m.cpu hok h)
  · exact liftCpu_frame m (add_err_frame m.cpu hok h)
  · exact liftCpu_frame m (sub_err_frame m.cpu hok h)
  · exact liftCpu_frame m (mul_err_frame m.cpu hok h)
  · exact liftCpu_frame m (div_reg_err_frame m.cpu hok h)
  · exact liftCpu_frame m (inc_err_frame m.cpu hok h)
  · exact liftCpu_frame m (dec_err_frame m.cpu hok h)
  · exact liftCpu_frame m (loop_err_frame m.cpu hok h)
  · exact liftCpu_frame m (movr_err_frame m.cpu hok h)
  · exact liftCpu_frame m (load_err_frame m.cpu hok h)
  · exact liftCpu_frame m (store_err_frame m.cpu hok h)
  · exact in_instr_err_frame m hok h
  · exact get_err_frame m hok h
  · exact out_err_frame m hok h
  · exact put_err_frame m hok h
  · exact liftCpu_frame m (swap_err_frame m.cpu hok h)
  · exact liftCpu_frame m (push_err_frame m.cpu hok h)
  · exact liftCpu_frame m (pop_err_frame m.cpu hok h)

/-- C10: whenever a step taken from an OK state ends in an error status
(anything other than OK or HALTED — covering the invalid register
operand, division by zero, full-stack push, empty-stack pop, load/store
address outside the live stack window, out-of-range put, and malformed
`in` token failures, as well as the fetch failures), the registers, every
memory cell, the stack size, the stack boundaries and the I/O streams are
exactly unchanged: only the status and the instruction pointer are
modified. -/
theorem c10_error_frame (m : Machine)
    (hok : m.cpu.status = CpuStatus.ok)
    (herr : (cpu_step m).1.cpu.status ≠ CpuStatus.ok ∧
            (cpu_step m).1.cpu.status ≠ CpuStatus.halted) :
    (cpu_step m).1.cpu.registers = m.cpu.registers ∧
    (cpu_step m).1.cpu.memory = m.cpu.memory ∧
    (cpu_step m).1.cpu.stack_size = m.cpu.stack_size ∧
    (cpu_step m).1.cpu.stack_bottom = m.cpu.stack_bottom ∧
    (cpu_step m).1.cpu.stack_top = m.cpu.stack_top ∧
    (cpu_step m).1.stdin_tokens = m.stdin_tokens ∧
    (cpu_step m).1.stdin_bytes = m.stdin_bytes ∧
    (cpu_step m).1.stdout = m.stdout := by
  by_cases hip : m.cpu.instruction_index < 0 ∨ m.cpu.stack_top - 1 < m.cpu.instruction_index
  · have hs : cpu_step m = ({ m with cpu := { m.cpu with status := CpuStatus.invalidAddress } }, 0) := by
      unfold cpu_step
      simp [hok, hip]
    rw [hs]
    exact ⟨rfl, rfl, rfl, rfl, rfl, rfl, rfl, rfl⟩
  · by_cases hinstr : memRead m.cpu m.cpu.instruction_index < 0 ∨
        18 < memRead m.cpu m.cpu.instruction_index
    · have hs : cpu_step m = ({ m with cpu := { m.cpu with status := CpuStatus.illegalInstruction } }, 0) := by
        unfold cpu_step
        simp [hok, hip, hinstr]
      rw [hs]
      exact ⟨rfl, rfl, rfl, rfl, rfl, rfl, rfl, rfl⟩
    · have hs : (cpu_step m).1 = instructions (memRead m.cpu m.cpu.instruction_index) m := by
        by_cases hm' : (instructions (memRead m.cpu m.cpu.instruction_index) m).cpu.status
            = CpuStatus.ok <;>
          · unfold cpu_step
            simp [hok, hip, hinstr, hm']
      rw [hs] at herr ⊢
      have hf := instructions_err_frame (memRead m.cpu m.cpu.instruction_index) m hok
        (by omega) (by omega) herr
      exact ⟨hf.1.1, hf.1.2.1, hf.1.2.2.1, hf.1.2.2.2.1, hf.1.2.2.2.2, hf.2.1, hf.2.2.1, hf.2.2.2⟩

/-- A machine about to run `div B` with B = 0 (a failing handler). -/
def c10_machine : Machine :=
  { cpu := { registers := ⟨1, 0, 0, 0⟩, status := CpuStatus.ok, stack_size := 0,
             instruction_index := 0, memory := [5, 1, 0, 0], stack_bottom := 3,
             stack_top := 2 },
    stdin_tokens := [], stdin_bytes := [], stdout := [] }

/-- C10 witness: the step that hits DIV_BY_ZERO on `div B` with B = 0
changes none of the registers, memory, stack bookkeeping or streams. -/
theorem c10_error_frame_witness :
    (cpu_step c10_machine).1.cpu.registers = c10_machine.cpu.registers ∧
    (cpu_step c10_machine).1.cpu.memory = c10_machine.cpu.memory ∧
    (cpu_step c10_machine).1.cpu.stack_size = c10_machine.cpu.stack_size ∧
    (cpu_step c10_machine).1.cpu.stack_bottom = c10_machine.cpu.stack_bottom ∧
    (cpu_step c10_machine).1.cpu.stack_top = c10_machine.cpu.stack_top ∧
    (cpu_step c10_machine).1.stdin_tokens = c10_machine.stdin_tokens ∧
    (cpu_step c10_machine).1.stdin_bytes = c10_machine.stdin_bytes ∧
    (cpu_step c10_machine).1.stdout = c10_machine.stdout :=
  c10_error_frame c10_machine rfl (by decide)

end Cpu32
